import Mathlib

/-!
Shallow embedding of the chess rules engine and search AI of `CHESS.py`.

Conventions used throughout:
* a board cell is `none` (the Python integer `0`) or `some (kind, color)`
  (the Python two-character string such as `Rw`);
* coordinates are integers; Python list indexing semantics (negative
  indices wrap once from the end, out-of-range indices raise) are embedded
  by `pyGet` / `pySet`, which return a default, respectively leave the list
  unchanged, on the raising domain;
* the Python `GamePosition` object becomes an immutable record, and the
  mutating methods become functions returning the updated record.
-/

/-- Piece kinds: king, queen, bishop, knight, rook, pawn. -/
inductive PKind where
  | K | Q | B | N | R | P
deriving DecidableEq, Repr

/-- Piece colors: white and black. -/
inductive PCol where
  | w | b
deriving DecidableEq, Repr

/-- A board cell: `0` (empty) or a piece string such as `Qb`. -/
abbrev Cell := Option (PKind × PCol)

/-- The 8x8 board, a list of rows; `board[y][x]` is row `y`, column `x`. -/
abbrev BoardL := List (List Cell)

instance instDEqBoardL : DecidableEq BoardL := inferInstance

/-- Python list read `l[i]`: negative indices count from the end
(one wrap only); an index out of `[-len, len)` raises in Python and is
mapped to the default `d` here. -/
def pyGet {α : Type} (l : List α) (i : Int) (d : α) : α :=
  if 0 ≤ i then l.getD i.toNat d
  else if (-i).toNat ≤ l.length then l.getD (l.length - (-i).toNat) d
  else d

/-- Python list write `l[i] = v`; out-of-range writes (which raise in
Python) leave the list unchanged. -/
def pySet {α : Type} (l : List α) (i : Int) (v : α) : List α :=
  if 0 ≤ i then l.set i.toNat v
  else if (-i).toNat ≤ l.length then l.set (l.length - (-i).toNat) v
  else l

/-- Read `board[y][x]`. -/
def getCell (board : BoardL) (x y : Int) : Cell :=
  pyGet (pyGet board y []) x none

/-- Write `board[y][x] = v`. -/
def setCell (board : BoardL) (x y : Int) (v : Cell) : BoardL :=
  pySet board y (pySet (pyGet board y []) x v)

/-- The castling-rights value: a list `[[wk, wq], [bk, bq]]` of lists of
booleans, indexed first by player (0 = white, 1 = black), then by side
(0 = kingside, 1 = queenside), exactly as in the source. -/
abbrev CastleR := List (List Bool)

/-- `pos2key` output: the board (tuple of row tuples), the side to play and
the two castling-rights entries. -/
abbrev Key := BoardL × Nat × (List Bool × List Bool)

instance instDEqKey : DecidableEq Key := inferInstance

/-- `GamePosition`: board, player to move (0 white / 1 black), castling
rights, en-passant target (`-1` in Python becomes `none`), half-move clock
and repetition history (a dictionary from keys to counts, embedded as an
association list). -/
structure GamePosition where
  board : BoardL
  player : Nat
  castling : CastleR
  EnP : Option (Int × Int)
  HMC : Nat
  history : List (Key × Nat)
deriving DecidableEq, Repr

/-- `GamePosition.clone`: independent copy of board and castling rights;
the clone is created without a history argument (the Python default). -/
def GamePosition.clone (p : GamePosition) : GamePosition :=
  { board := p.board, player := p.player, castling := p.castling,
    EnP := p.EnP, HMC := p.HMC, history := [] }

/-- `Commands.pos2key`: the key is the board made hashable, the side to
play, and the pair of castling-rights entries.  The en-passant target, the
half-move clock and the history do not enter the key. -/
def pos2key (p : GamePosition) : Key :=
  (p.board, p.player, (p.castling.getD 0 [], p.castling.getD 1 []))

/-- `Commands.isOccupied`. -/
def isOccupied (board : BoardL) (x y : Int) : Bool :=
  (getCell board x y).isSome

/-- `Commands.isOccupiedby` (the color argument is the one-character
color). -/
def isOccupiedby (board : BoardL) (x y : Int) (color : PCol) : Bool :=
  match getCell board x y with
  | none => false
  | some (_, c) => c == color

/-- `Commands.filterbyColor`: keep on-board squares not occupied by the
given color. -/
def filterbyColor (board : BoardL) (listofTuples : List (Int × Int))
    (color : PCol) : List (Int × Int) :=
  listofTuples.filter (fun pos =>
    decide (0 ≤ pos.1) && decide (pos.1 ≤ 7) && decide (0 ≤ pos.2) &&
    decide (pos.2 ≤ 7) && !(isOccupiedby board pos.1 pos.2 color))

/-- `Commands.lookfor`: all `(x, y)` whose cell equals `piece`, row-major
as in the nested `for row / for col` loops. -/
def lookfor (board : BoardL) (piece : Cell) : List (Int × Int) :=
  (List.range 8).flatMap (fun row =>
    (List.range 8).flatMap (fun col =>
      if (board.getD row []).getD col none == piece
      then [((col : Int), (row : Int))] else []))

/-- `Commands.opp`. -/
def opp (color : PCol) : PCol :=
  match color with
  | .w => .b
  | .b => .w

/-- One sliding ray of the rook/bishop `while` loops: step by `(dx, dy)`
from `(x, y)`, collecting empty squares, stopping at the first occupied
square (kept when occupied by `enemy`), or at the board edge.  The loop
body runs at most 8 times before leaving the board, hence fuel 8. -/
def rayWalk (board : BoardL) (enemy : PCol) (dx dy : Int) :
    Nat → Int → Int → List (Int × Int)
  | 0, _, _ => []
  | fuel + 1, kx, ky =>
    let kx2 := kx + dx
    let ky2 := ky + dy
    if kx2 ≤ 7 ∧ kx2 ≥ 0 ∧ ky2 ≤ 7 ∧ ky2 ≥ 0 then
      if !(isOccupied board kx2 ky2) then
        (kx2, ky2) :: rayWalk board enemy dx dy fuel kx2 ky2
      else if isOccupiedby board kx2 ky2 enemy then [(kx2, ky2)]
      else []
    else []

/-- The rook part of `findPossibleSquares`: horizontal rays (`i` in
`[-1, 1]`) then vertical rays (`i` in `[-1, 1]`). -/
def rookTargets (board : BoardL) (enemy : PCol) (x y : Int) :
    List (Int × Int) :=
  rayWalk board enemy (-1) 0 8 x y ++ rayWalk board enemy 1 0 8 x y ++
  rayWalk board enemy 0 (-1) 8 x y ++ rayWalk board enemy 0 1 8 x y

/-- The bishop part of `findPossibleSquares`: diagonal rays, `dx` in
`[-1, 1]` outer, `dy` in `[-1, 1]` inner. -/
def bishopTargets (board : BoardL) (enemy : PCol) (x y : Int) :
    List (Int × Int) :=
  rayWalk board enemy (-1) (-1) 8 x y ++ rayWalk board enemy (-1) 1 8 x y ++
  rayWalk board enemy 1 (-1) 8 x y ++ rayWalk board enemy 1 1 8 x y

/-- The knight offsets of `findPossibleSquares`, in loop order
(`dx` in `[-2, -1, 1, 2]`, `dy` in `[-sy, sy]`). -/
def knightOffsets (x y : Int) : List (Int × Int) :=
  [(x - 2, y - 1), (x - 2, y + 1), (x - 1, y - 2), (x - 1, y + 2),
   (x + 1, y - 2), (x + 1, y + 2), (x + 2, y - 1), (x + 2, y + 1)]

/-- The king adjacency offsets of `findPossibleSquares`, in loop order
(`dx` in `[-1, 0, 1]` outer, `dy` in `[-1, 0, 1]` inner; the square itself
is included and removed later by `filterbyColor`). -/
def kingOffsets (x y : Int) : List (Int × Int) :=
  [(x - 1, y - 1), (x - 1, y), (x - 1, y + 1), (x, y - 1), (x, y),
   (x, y + 1), (x + 1, y - 1), (x + 1, y), (x + 1, y + 1)]

/-- Update `castling[i][j] = v` (mutation of the inner list). -/
def setCR (castling : CastleR) (i j : Nat) (v : Bool) : CastleR :=
  castling.set i ((castling.getD i []).set j v)

/-- `Commands.makemove`: applies the move `(x, y) → (x2, y2)`.  When the
origin square is empty the function returns immediately, leaving the
position untouched.  Otherwise it updates the half-move clock, moves the
piece, handles the king (castling-rights loss and rook relocation on a
two-square king move), the rook (corner-specific castling-rights loss),
and the pawn (en-passant capture, en-passant target, promotion), then
flips the player. -/
def makemove (position : GamePosition) (x y x2 y2 : Int) : GamePosition :=
  match getCell position.board x y with
  | none => position
  | some (piece, color) =>
    let board := position.board
    let player := position.player
    let castling := position.castling
    let EnP := position.EnP
    -- Update the half move clock (capture or pawn move resets it):
    let HMC1 : Nat :=
      if isOccupied board x2 y2 || piece == PKind.P then 0
      else position.HMC + 1
    -- Make the move:
    let board1 := setCell (setCell board x2 y2 (getCell board x y)) x y none
    -- King: lose both castling rights; relocate the rook on castling:
    let castling1 :=
      if piece == PKind.K then castling.set player [false, false]
      else castling
    let board2 :=
      if piece == PKind.K ∧ (x2 - x).natAbs = 2 then
        let l : Int := if color == PCol.w then 7 else 0
        if x2 > x then setCell (setCell board1 5 l (some (.R, color))) 7 l none
        else setCell (setCell board1 3 l (some (.R, color))) 0 l none
      else board1
    -- Rook: lose the castling right of the home corner moved from:
    let castling2 :=
      if piece == PKind.R then
        if x = 0 ∧ y = 0 then setCR castling1 1 1 false
        else if x = 7 ∧ y = 0 then setCR castling1 1 0 false
        else if x = 0 ∧ y = 7 then setCR castling1 0 1 false
        else if x = 7 ∧ y = 7 then setCR castling1 0 0 false
        else castling1
      else castling1
    -- Pawn: en-passant capture removes the bypassed pawn:
    let board3 :=
      if piece == PKind.P ∧ EnP = some (x2, y2) then
        if color == PCol.w then setCell board2 x2 (y2 + 1) none
        else setCell board2 x2 (y2 - 1) none
      else board2
    -- A two-square pawn move creates an en-passant target, any other
    -- move clears it:
    let EnP1 : Option (Int × Int) :=
      if piece == PKind.P then
        if (y2 - y).natAbs = 2 then some (x, (y + y2) / 2) else none
      else none
    -- Promotion (always to a queen):
    let board4 :=
      if piece == PKind.P ∧ y2 = 0 then setCell board3 x2 y2 (some (.Q, .w))
      else if piece == PKind.P ∧ y2 = 7 then setCell board3 x2 y2 (some (.Q, .b))
      else board3
    { board := board4, player := 1 - player, castling := castling2,
      EnP := EnP1, HMC := HMC1, history := position.history }

/-- The pawn part of `findPossibleSquares`: non-capturing forward moves
(suppressed in attack-search mode), diagonal captures, and the en-passant
target (the black branch compares the target directly; `-1` never equals a
coordinate pair, which the `Option` match reflects). -/
def pawnTargets (board : BoardL) (EnP : Option (Int × Int)) (x y : Int)
    (color : PCol) (AttackSearch : Bool) : List (Int × Int) :=
  match color with
  | .w =>
    (if !(isOccupied board x (y - 1)) && !AttackSearch then
      (x, y - 1) ::
        (if y = 6 ∧ !(isOccupied board x (y - 2)) then [(x, y - 2)] else [])
     else []) ++
    (if x ≠ 0 ∧ isOccupiedby board (x - 1) (y - 1) .b then [(x - 1, y - 1)]
     else []) ++
    (if x ≠ 7 ∧ isOccupiedby board (x + 1) (y - 1) .b then [(x + 1, y - 1)]
     else []) ++
    (match EnP with
     | some t => if t = (x - 1, y - 1) ∨ t = (x + 1, y - 1) then [t] else []
     | none => [])
  | .b =>
    (if !(isOccupied board x (y + 1)) && !AttackSearch then
      (x, y + 1) ::
        (if y = 1 ∧ !(isOccupied board x (y + 2)) then [(x, y + 2)] else [])
     else []) ++
    (if x ≠ 0 ∧ isOccupiedby board (x - 1) (y + 1) .w then [(x - 1, y + 1)]
     else []) ++
    (if x ≠ 7 ∧ isOccupiedby board (x + 1) (y + 1) .w then [(x + 1, y + 1)]
     else []) ++
    (match EnP with
     | some t => if t = (x - 1, y + 1) ∨ t = (x + 1, y + 1) then [t] else []
     | none => [])

/-- The attack-search run of `Commands.findPossibleSquares`
(`AttackSearch=True`, the only mode `isAttackedby` invokes): pawn forward
moves, castling generation and the final own-king-safety filter are all
suppressed, so the function does not recurse.  The queen branch is the
one-step unfolding of the source's recursive calls: the square is
temporarily rewritten to a rook (then a bishop) and the function rerun
with `AttackSearch=True`, which executes exactly the rook (bishop) ray
walk on that board. -/
def attackTargets (position : GamePosition) (x y : Int) :
    List (Int × Int) :=
  match getCell position.board x y with
  | none => []  -- Python raises here (`board[y][x][0]` on an empty square)
  | some (piece, color) =>
    let board := position.board
    let enemy_color := opp color
    match piece with
    | .P => pawnTargets board position.EnP x y color true
    | .R => rookTargets board enemy_color x y
    | .N => filterbyColor board (knightOffsets x y) color
    | .B => bishopTargets board enemy_color x y
    | .Q =>
      rookTargets (setCell board x y (some (.R, color))) enemy_color x y ++
      bishopTargets (setCell board x y (some (.B, color))) enemy_color x y
    | .K => filterbyColor board (kingOffsets x y) color

/-- `Commands.isAttackedby`: collect, over every square holding a piece of
`color` (outer loop on `x`, inner on `y`), the attack-search targets, and
test membership of the target square. -/
def isAttackedby (position : GamePosition) (target_x target_y : Int)
    (color : PCol) : Bool :=
  ((List.range 8).flatMap (fun x =>
    (List.range 8).flatMap (fun y =>
      if (match getCell position.board (x : Int) (y : Int) with
          | some (_, c) => c == color
          | none => false) = true
      then attackTargets position (x : Int) (y : Int)
      else []))).contains (target_x, target_y)

/-- The pseudo-legal-target part of `Commands.findPossibleSquares` in its
default mode (`AttackSearch=False`): everything in the source function
except the final own-king-safety filter, which lives in
`findPossibleSquares` below.  The pawn, rook, knight, bishop and queen
branches are those of `attackTargets` except that the pawn also moves
forward; the king branch additionally generates the castling targets,
whose attack conditions call `isAttackedby` (the source's recursion with
`AttackSearch=True`). -/
def pseudoTargets (position : GamePosition) (x y : Int) :
    List (Int × Int) :=
  match getCell position.board x y with
  | none => []  -- Python raises here (`board[y][x][0]` on an empty square)
  | some (piece, color) =>
    let board := position.board
    let enemy_color := opp color
    match piece with
    | .P => pawnTargets board position.EnP x y color false
    | .R => rookTargets board enemy_color x y
    | .N => filterbyColor board (knightOffsets x y) color
    | .B => bishopTargets board enemy_color x y
    | .Q =>
      rookTargets (setCell board x y (some (.R, color))) enemy_color x y ++
      bishopTargets (setCell board x y (some (.B, color))) enemy_color x y
    | .K =>
      let base := filterbyColor board (kingOffsets x y) color
      let right := position.castling.getD position.player []
      let kingside : Bool :=
        right.getD 0 false &&
        (match getCell board 7 y with
         | some (pk, _) => pk == PKind.R
         | none => false) &&
        !(isOccupied board (x + 1) y) && !(isOccupied board (x + 2) y) &&
        !(isAttackedby position x y enemy_color) &&
        !(isAttackedby position (x + 1) y enemy_color) &&
        !(isAttackedby position (x + 2) y enemy_color)
      let queenside : Bool :=
        right.getD 1 false &&
        (match getCell board 0 y with
         | some (pk, _) => pk == PKind.R
         | none => false) &&
        !(isOccupied board (x - 1) y) && !(isOccupied board (x - 2) y) &&
        !(isOccupied board (x - 3) y) &&
        !(isAttackedby position x y enemy_color) &&
        !(isAttackedby position (x - 1) y enemy_color) &&
        !(isAttackedby position (x - 2) y enemy_color)
      (base ++ (if kingside then [(x + 2, y)] else [])) ++
        (if queenside then [(x - 2, y)] else [])

/-- `Commands.isCheck`: locate the king of the given color and test
whether the enemy attacks its square.  Python indexes `lookfor(...)[0]`
and raises when the king is absent; the empty-list branch is that raising
domain. -/
def isCheck (position : GamePosition) (color : PCol) : Bool :=
  match lookfor position.board (some (.K, color)) with
  | [] => false
  | (x, y) :: _ => isAttackedby position x y (opp color)

/-- `Commands.findPossibleSquares` with the default `AttackSearch=False`:
pseudo-legal targets filtered by simulating each candidate on a clone and
rejecting it when the mover's own king would be attacked. -/
def findPossibleSquares (position : GamePosition) (x y : Int) :
    List (Int × Int) :=
  match getCell position.board x y with
  | none => []  -- Python raises here
  | some (_, color) =>
    (pseudoTargets position x y).filter (fun t =>
      !(isCheck (makemove position.clone x y t.1 t.2) color))

/-- `Commands.getallpieces` (outer loop on `j`, inner on `i`, appending
`(i, j)`). -/
def getallpieces (position : GamePosition) (color : PCol) :
    List (Int × Int) :=
  (List.range 8).flatMap (fun j =>
    (List.range 8).flatMap (fun i =>
      if isOccupiedby position.board (i : Int) (j : Int) color
      then [((i : Int), (j : Int))] else []))

/-- A move: origin and destination square, the two-element list
`[pos, target]` of the source. -/
abbrev MoveT := (Int × Int) × (Int × Int)

/-- `Commands.allMoves` for a one-character color argument: every
`[pos, target]` with `target` among the legal targets of the piece at
`pos`. -/
def allMoves (position : GamePosition) (color : PCol) : List MoveT :=
  (getallpieces position color).flatMap (fun pos =>
    (findPossibleSquares position pos.1 pos.2).map (fun target =>
      (pos, target)))

/-- The color-sign to color conversion at the head of `allMoves`
(`1 → white`, `-1 → black`; any other sign raises in the source). -/
def signColor (colorsign : Int) : PCol :=
  if colorsign = 1 then .w else .b

/-- `Commands.isCheckmate` with an explicit color: in check and no move to
play. -/
def isCheckmate (position : GamePosition) (color : PCol) : Bool :=
  isCheck position color && decide (allMoves position color = [])

/-- `Commands.isStalemate`: the side to move is not in check yet has no
move to play. -/
def isStalemate (position : GamePosition) : Bool :=
  let color : PCol := if position.player = 0 then .w else .b
  !(isCheck position color) && decide (allMoves position color = [])

/-- `Board.create_board`: the standard starting arrangement (black pieces
on rows 0-1, white on rows 6-7). -/
def create_board : BoardL :=
  [[some (.R, .b), some (.N, .b), some (.B, .b), some (.Q, .b),
    some (.K, .b), some (.B, .b), some (.N, .b), some (.R, .b)],
   List.replicate 8 (some (.P, .b)),
   List.replicate 8 none, List.replicate 8 none,
   List.replicate 8 none, List.replicate 8 none,
   List.replicate 8 (some (.P, .w)),
   [some (.R, .w), some (.N, .w), some (.B, .w), some (.Q, .w),
    some (.K, .w), some (.B, .w), some (.N, .w), some (.R, .w)]]

/-- The initial `GamePosition` built by the GUI: standard board, white to
move, full castling rights, no en-passant target, zero half-move clock,
empty history. -/
def startPos : GamePosition :=
  { board := create_board, player := 0,
    castling := [[true, true], [true, true]],
    EnP := none, HMC := 0, history := [] }

/-- The flattened board of `AI.evaluate`
(`[x for row in board for x in row]`). -/
def flattenBoard (board : BoardL) : List Cell :=
  board.flatMap (fun row => row)

/-- White material as in `AI.evaluate`:
`9*Qw + 5*Rw + 3*Nw + 3*Bw + 1*Pw`, counts as by the `Counter`. -/
def whiteMaterialOf (flatboard : List Cell) : Nat :=
  9 * flatboard.count (some (.Q, .w)) + 5 * flatboard.count (some (.R, .w)) +
  3 * flatboard.count (some (.N, .w)) + 3 * flatboard.count (some (.B, .w)) +
  1 * flatboard.count (some (.P, .w))

/-- Black material as in `AI.evaluate`:
`9*Qb + 5*Rb + 3*Nb + 3*Bb + 1*Pb`. -/
def blackMaterialOf (flatboard : List Cell) : Nat :=
  9 * flatboard.count (some (.Q, .b)) + 5 * flatboard.count (some (.R, .b)) +
  3 * flatboard.count (some (.N, .b)) + 3 * flatboard.count (some (.B, .b)) +
  1 * flatboard.count (some (.P, .b))

/-- The game phase of `AI.evaluate`. -/
inductive Phase where
  | opening | ending
deriving DecidableEq, Repr

/-- The game-phase computation of `AI.evaluate` (factored out of the
function body): `numofmoves = len(position.gethistory())`, and the phase
is `ending` when `numofmoves > 40` or both materials are below 14. -/
def gamephase (position : GamePosition) : Phase :=
  if position.history.length > 40 ∨
     (whiteMaterialOf (flattenBoard position.board) < 14 ∧
      blackMaterialOf (flattenBoard position.board) < 14)
  then .ending else .opening

/-- `PieceTable.pawn_table`. -/
def pawn_table : List Int :=
  [0, 0, 0, 0, 0, 0, 0, 0,
   50, 50, 50, 50, 50, 50, 50, 50,
   10, 10, 20, 30, 30, 20, 10, 10,
   5, 5, 10, 25, 25, 10, 5, 5,
   0, 0, 0, 20, 20, 0, 0, 0,
   5, -5, -10, 0, 0, -10, -5, 5,
   5, 10, 10, -20, -20, 10, 10, 5,
   0, 0, 0, 0, 0, 0, 0, 0]

/-- `PieceTable.knight_table`. -/
def knight_table : List Int :=
  [-50, -40, -30, -30, -30, -30, -40, -50,
   -40, -20, 0, 0, 0, 0, -20, -40,
   -30, 0, 10, 15, 15, 10, 0, -30,
   -30, 5, 15, 20, 20, 15, 5, -30,
   -30, 0, 15, 20, 20, 15, 0, -30,
   -30, 5, 10, 15, 15, 10, 5, -30,
   -40, -20, 0, 5, 5, 0, -20, -40,
   -50, -90, -30, -30, -30, -30, -90, -50]

/-- `PieceTable.bishop_table`. -/
def bishop_table : List Int :=
  [-20, -10, -10, -10, -10, -10, -10, -20,
   -10, 0, 0, 0, 0, 0, 0, -10,
   -10, 0, 5, 10, 10, 5, 0, -10,
   -10, 5, 5, 10, 10, 5, 5, -10,
   -10, 0, 10, 10, 10, 10, 0, -10,
   -10, 10, 10, 10, 10, 10, 10, -10,
   -10, 5, 0, 0, 0, 0, 5, -10,
   -20, -10, -90, -10, -10, -90, -10, -20]

/-- `PieceTable.rook_table`. -/
def rook_table : List Int :=
  [0, 0, 0, 0, 0, 0, 0, 0,
   5, 10, 10, 10, 10, 10, 10, 5,
   -5, 0, 0, 0, 0, 0, 0, -5,
   -5, 0, 0, 0, 0, 0, 0, -5,
   -5, 0, 0, 0, 0, 0, 0, -5,
   -5, 0, 0, 0, 0, 0, 0, -5,
   -5, 0, 0, 0, 0, 0, 0, -5,
   0, 0, 0, 5, 5, 0, 0, 0]

/-- `PieceTable.queen_table`. -/
def queen_table : List Int :=
  [-20, -10, -10, -5, -5, -10, -10, -20,
   -10, 0, 0, 0, 0, 0, 0, -10,
   -10, 0, 5, 5, 5, 5, 0, -10,
   -5, 0, 5, 5, 5, 5, 0, -5,
   0, 0, 5, 5, 5, 5, 0, -5,
   -10, 5, 5, 5, 5, 5, 0, -10,
   -10, 0, 5, 0, 0, 0, 0, -10,
   -20, -10, -10, 70, -5, -10, -10, -20]

/-- `PieceTable.king_table`. -/
def king_table : List Int :=
  [-30, -40, -40, -50, -50, -40, -40, -30,
   -30, -40, -40, -50, -50, -40, -40, -30,
   -30, -40, -40, -50, -50, -40, -40, -30,
   -30, -40, -40, -50, -50, -40, -40, -30,
   -20, -30, -30, -40, -40, -30, -30, -20,
   -10, -20, -20, -20, -20, -20, -20, -10,
   20, 20, 0, 0, 0, 0, 20, 20,
   20, 30, 10, 0, 0, 10, 30, 20]

/-- `PieceTable.king_endgame_table`. -/
def king_endgame_table : List Int :=
  [-50, -40, -30, -20, -20, -30, -40, -50,
   -30, -20, -10, 0, 0, -10, -20, -30,
   -30, -10, 20, 30, 30, 20, -10, -30,
   -30, -10, 30, 40, 40, 30, -10, -30,
   -30, -10, 30, 40, 40, 30, -10, -30,
   -30, -10, 20, 30, 30, 20, -10, -30,
   -30, -30, 0, 0, 0, 0, -30, -30,
   -50, -30, -30, -30, -30, -30, -30, -50]

/-- Which table a piece uses (king depends on the phase). -/
def tableFor (piece : PKind) (phase : Phase) : List Int :=
  match piece with
  | .P => pawn_table
  | .N => knight_table
  | .B => bishop_table
  | .R => rook_table
  | .Q => queen_table
  | .K => match phase with
          | .opening => king_table
          | .ending => king_endgame_table

/-- Python table read `t[i]` (the black-square index adjustment can go
negative, where Python wraps from the end). -/
def tableGet (t : List Int) (i : Int) : Int :=
  pyGet t i 0

/-- `AI.pieceSquareTable`: sum the per-square table values; for a black
piece the index is remapped by `((7-i)//8)*8 + i%8` (Python floor
division) and the sign negated. -/
def pieceSquareTable (flatboard : List Cell) (phase : Phase) : Int :=
  (List.range 64).foldl (fun score i =>
    match flatboard.getD i none with
    | none => score
    | some (piece, color) =>
      let sign : Int := if color == PCol.b then -1 else 1
      let idx : Int :=
        if color == PCol.b then
          (Int.fdiv (7 - (i : Int)) 8) * 8 + (i : Int) % 8
        else (i : Int)
      score + sign * tableGet (tableFor piece phase) idx) 0

/-- `AI.doubledPawns`: count repeated pawn files (a running list of seen
files, incrementing on a repeat). -/
def doubledPawns (board : BoardL) (color : PCol) : Nat :=
  ((lookfor board (some (.P, color))).foldl
    (fun st pawnpos =>
      if st.2.contains pawnpos.1 then (st.1 + 1, st.2)
      else (st.1, st.2 ++ [pawnpos.1]))
    ((0 : Nat), ([] : List Int))).1

/-- `AI.blockedPawns`: pawns with an enemy piece directly ahead. -/
def blockedPawns (board : BoardL) (color : PCol) : Nat :=
  (lookfor board (some (.P, color))).foldl
    (fun blocked pawnpos =>
      if (color == PCol.w && isOccupiedby board pawnpos.1 (pawnpos.2 - 1) .b)
         || (color == PCol.b && isOccupiedby board pawnpos.1 (pawnpos.2 + 1) .w)
      then blocked + 1 else blocked) 0

/-- `AI.isolatedPawns`: pawns with no friendly pawn on an adjacent
file. -/
def isolatedPawns (board : BoardL) (color : PCol) : Nat :=
  let xlist := (lookfor board (some (.P, color))).map (fun p => p.1)
  xlist.foldl (fun isolated x =>
    if x ≠ 0 ∧ x ≠ 7 then
      if ¬ xlist.contains (x - 1) = true ∧ ¬ xlist.contains (x + 1) = true
      then isolated + 1 else isolated
    else if x = 0 ∧ ¬ xlist.contains 1 = true then isolated + 1
    else if x = 7 ∧ ¬ xlist.contains 6 = true then isolated + 1
    else isolated) 0

/-- `AI.evaluate`: checkmate shortcut, then material, pawn-structure
penalty and piece-square term.  The material sums and the game phase are
the factored definitions above. -/
def evaluate (position : GamePosition) : Int :=
  if isCheckmate position .w then -20000
  else if isCheckmate position .b then 20000
  else
    let board := position.board
    let flatboard := flattenBoard board
    let qw : Int := flatboard.count (some (.Q, .w))
    let qb : Int := flatboard.count (some (.Q, .b))
    let rw : Int := flatboard.count (some (.R, .w))
    let rb : Int := flatboard.count (some (.R, .b))
    let bw : Int := flatboard.count (some (.B, .w))
    let bb : Int := flatboard.count (some (.B, .b))
    let nw : Int := flatboard.count (some (.N, .w))
    let nb : Int := flatboard.count (some (.N, .b))
    let pw : Int := flatboard.count (some (.P, .w))
    let pb : Int := flatboard.count (some (.P, .b))
    let dw : Int := doubledPawns board .w
    let db : Int := doubledPawns board .b
    let sw : Int := blockedPawns board .w
    let sb : Int := blockedPawns board .b
    let iw : Int := isolatedPawns board .w
    let ib : Int := isolatedPawns board .b
    let evaluation1 : Int :=
      900 * (qw - qb) + 500 * (rw - rb) + 330 * (bw - bb) +
      320 * (nw - nb) + 100 * (pw - pb) +
      (-30) * (dw - db + (sw - sb) + (iw - ib))
    let evaluation2 : Int := pieceSquareTable flatboard (gamephase position)
    evaluation1 + evaluation2

/-- The transposition table `searched`: a dictionary from position keys to
cached values, embedded as an association list where insertion prepends
(so a later binding shadows an earlier one, as a dictionary update
does). -/
abbrev SMap := List (Key × Int)

/-- Dictionary lookup `key in searched` / `searched[key]`. -/
def slookup : SMap → Key → Option Int
  | [], _ => none
  | (k, v) :: rest, key => if k = key then some v else slookup rest key

/-- Dictionary update `searched[key] = value`. -/
def sinsert (searched : SMap) (key : Key) (value : Int) : SMap :=
  (key, value) :: searched

/-- The opening book: a dictionary from position keys to recorded move
lists. -/
abbrev OMap := List (Key × List MoveT)

/-- Opening-book lookup. -/
def olookup : OMap → Key → Option (List MoveT)
  | [], _ => none
  | (k, v) :: rest, key => if k = key then some v else olookup rest key

/-- Placeholder move (`moves[0]` is only read when `moves` is
nonempty). -/
def dummyMove : MoveT := ((0, 0), (0, 0))

/-- The outcome of a `negamax` call: the contents of the
`bestMoveReturn` output list (`none` when untouched), the Python return
value (`none` at a root that returned via `bestMoveReturn`), and the
state of the shared `searched` dictionary after the call. -/
structure NegaRet where
  bmr : Option MoveT
  ret : Option Int
  searched : SMap

set_option maxHeartbeats 1000000 in
mutual

/-- `AI.negamax`.  The `random.choice` over recorded opening moves is
embedded as the ambient selection function `pick`.  The `for move in
moves` loop is `negamaxLoop` below; it starts from
`bestValue = -100000` and (at the root) `bestMove = moves[0]`. -/
def negamax (position : GamePosition) (depth : Nat) (alpha beta : Int)
    (colorsign : Int) (pick : List MoveT → MoveT) (openings : OMap)
    (searched : SMap) (root : Bool) : NegaRet :=
  if root = true ∧ (olookup openings (pos2key position)).isSome = true then
    ⟨some (pick ((olookup openings (pos2key position)).getD [])), none,
     searched⟩
  else
    match depth with
    | 0 => ⟨none, some (colorsign * evaluate position), searched⟩
    | d + 1 =>
      let moves := allMoves position (signColor colorsign)
      if moves = [] then ⟨none, some (colorsign * evaluate position), searched⟩
      else
        let r := negamaxLoop position d moves (-100000)
          (moves.headD dummyMove) alpha beta colorsign pick openings searched
        if root then ⟨some r.1, none, r.2.2⟩ else ⟨none, some r.2.1, r.2.2⟩
termination_by (depth, 0, 0)

/-- The per-move value computation of the `negamax` loop body: clone,
apply the move, compute the key; on a cache hit reuse the stored value,
otherwise recurse one ply deeper (with negated, swapped bounds and
negated sign, non-root) and store the negated result under the key. -/
def moveValue (position : GamePosition) (d : Nat) (move : MoveT)
    (alpha beta : Int) (colorsign : Int) (pick : List MoveT → MoveT)
    (openings : OMap) (searched : SMap) : Int × SMap :=
  let newpos := makemove position.clone move.1.1 move.1.2 move.2.1 move.2.2
  let key := pos2key newpos
  match slookup searched key with
  | some v => (v, searched)
  | none =>
    let r := negamax newpos d (-beta) (-alpha) (-colorsign) pick openings
      searched false
    let value := -(r.ret.getD 0)
    (value, sinsert r.searched key value)
termination_by (d, 1, 0)

/-- The `for move in moves` loop of `AI.negamax`, at child depth `d`:
track the maximum value seen (strict `>` comparison, so a later equal
value never replaces the stored best move), raise `alpha`, and stop on
`alpha >= beta`.  Returns the final best move, best value, and `searched`
dictionary. -/
def negamaxLoop (position : GamePosition) (d : Nat) (moves : List MoveT)
    (bestValue : Int) (bestMove : MoveT) (alpha beta : Int)
    (colorsign : Int) (pick : List MoveT → MoveT) (openings : OMap)
    (searched : SMap) : MoveT × Int × SMap :=
  match moves with
  | [] => (bestMove, bestValue, searched)
  | move :: rest =>
    let vs := moveValue position d move alpha beta colorsign pick openings
      searched
    let value := vs.1
    let bv1 := if value > bestValue then value else bestValue
    let bm1 := if value > bestValue then move else bestMove
    let alpha1 := max alpha value
    if alpha1 ≥ beta then (bm1, bv1, vs.2)
    else negamaxLoop position d rest bv1 bm1 alpha1 beta colorsign pick
      openings vs.2
termination_by (d, 2, moves.length)

end

/-- Ghost companion of `negamaxLoop`: the list of values computed for the
examined moves, threading `alpha` and `searched` exactly as the loop does
(the values do not depend on `bestValue` or `bestMove`). -/
def negamaxLoopVals (position : GamePosition) (d : Nat)
    (moves : List MoveT) (alpha beta : Int) (colorsign : Int)
    (pick : List MoveT → MoveT) (openings : OMap) (searched : SMap) :
    List Int :=
  match moves with
  | [] => []
  | move :: rest =>
    let vs := moveValue position d move alpha beta colorsign pick openings
      searched
    let alpha1 := max alpha vs.1
    if alpha1 ≥ beta then [vs.1]
    else vs.1 :: negamaxLoopVals position d rest alpha1 beta colorsign pick
      openings vs.2

/-- A `GamePosition` object viewed at the heap level: the board and the
castling-rights list are mutable Python list objects, referenced by index
into a store; the player, en-passant target and half-move clock are
immutable attribute values held directly. -/
structure PosObj where
  boardRef : Nat
  player : Nat
  castleRef : Nat
  EnP : Option (Int × Int)
  HMC : Nat

/-- The heap of live board and castling-rights list objects. -/
structure Store where
  boards : List BoardL
  castles : List CastleR

/-- Assemble the value of a position object from the store. -/
def readPos (s : Store) (o : PosObj) : GamePosition :=
  { board := s.boards.getD o.boardRef [], player := o.player,
    castling := s.castles.getD o.castleRef [], EnP := o.EnP, HMC := o.HMC,
    history := [] }

/-- `GamePosition.clone` at the heap level: `copy.deepcopy` allocates
fresh board and castling-rights objects holding the same contents; the
immutable attributes are copied by value. -/
def cloneS (s : Store) (o : PosObj) : Store × PosObj :=
  (⟨s.boards ++ [s.boards.getD o.boardRef []],
    s.castles ++ [s.castles.getD o.castleRef []]⟩,
   { boardRef := s.boards.length, player := o.player,
     castleRef := s.castles.length, EnP := o.EnP, HMC := o.HMC })

/-- `Commands.makemove` at the heap level: the board and castling-rights
objects referenced by the position are mutated in place, and the
position's immutable attributes are reassigned. -/
def makemoveS (s : Store) (o : PosObj) (x y x2 y2 : Int) :
    Store × PosObj :=
  let g := makemove (readPos s o) x y x2 y2
  (⟨s.boards.set o.boardRef g.board, s.castles.set o.castleRef g.castling⟩,
   { boardRef := o.boardRef, player := g.player, castleRef := o.castleRef,
     EnP := g.EnP, HMC := g.HMC })

/-- Modelled from the spec: side material measured "using the material
weights above" — queen 900, rook 500, bishop 330, knight 320, pawn 100,
king excluded (spec 4.4 and the claim's phase sentence). -/
def specMaterial (flatboard : List Cell) (color : PCol) : Nat :=
  900 * flatboard.count (some (.Q, color)) +
  500 * flatboard.count (some (.R, color)) +
  330 * flatboard.count (some (.B, color)) +
  320 * flatboard.count (some (.N, color)) +
  100 * flatboard.count (some (.P, color))

/-- Modelled from the spec: the phase is "ending" once either more than 40
half-moves have elapsed (the history entry count) or both sides' material
sums, with the 900/500/330/320/100 weights, fall below 14; otherwise
"opening". -/
def gamephaseSpec (position : GamePosition) : Phase :=
  if position.history.length > 40 ∨
     (specMaterial (flattenBoard position.board) .w < 14 ∧
      specMaterial (flattenBoard position.board) .b < 14)
  then .ending else .opening

/-- An empty board row, for the concrete positions below. -/
def emptyRow : List Cell := List.replicate 8 none

/-- Kings on e1/e8 and queens on d1/d8, nothing else: the Counter-weight
material of each side is 9, the history is empty. -/
def queensPos : GamePosition :=
  { board := [[none, none, none, some (.Q, .b), some (.K, .b), none, none,
               none],
              emptyRow, emptyRow, emptyRow, emptyRow, emptyRow, emptyRow,
              [none, none, none, some (.Q, .w), some (.K, .w), none, none,
               none]],
    player := 0, castling := [[true, true], [true, true]],
    EnP := none, HMC := 0, history := [] }

/-- A position in which the white bishop on (4,3) can legally capture the
black rook sitting on its home corner (7,0). -/
def capturePos : GamePosition :=
  { board := [[none, none, none, none, some (.K, .b), none, none,
               some (.R, .b)],
              emptyRow, emptyRow,
              [none, none, none, none, some (.B, .w), none, none, none],
              emptyRow, emptyRow, emptyRow,
              [none, none, none, none, some (.K, .w), none, none, none]],
    player := 0, castling := [[true, true], [true, true]],
    EnP := none, HMC := 0, history := [] }

/-- A constructed position: white king on (2,7) with the kingside castling
right still recorded, an enemy (black) rook on the (7,7) corner, a black
knight on (5,7) blocking that rook's rank attacks, and the black king far
away on (0,0). -/
def ghostPos : GamePosition :=
  { board := [[some (.K, .b), none, none, none, none, none, none, none],
              emptyRow, emptyRow, emptyRow, emptyRow, emptyRow, emptyRow,
              [none, none, some (.K, .w), none, none, some (.N, .b), none,
               some (.R, .b)]],
    player := 0, castling := [[true, true], [true, true]],
    EnP := none, HMC := 0, history := [] }

/-- A minimal two-king position (white king on (0,7), black king on
(7,0)). -/
def kingsPos : GamePosition :=
  { board := [[none, none, none, none, none, none, none, some (.K, .b)],
              emptyRow, emptyRow, emptyRow, emptyRow, emptyRow, emptyRow,
              [some (.K, .w), none, none, none, none, none, none, none]],
    player := 0, castling := [[false, false], [false, false]],
    EnP := none, HMC := 0, history := [] }

/-- A one-position heap holding the starting board and castling list. -/
def startStore : Store :=
  { boards := [create_board], castles := [[[true, true], [true, true]]] }

/-- The position object referencing the single entry of `startStore`. -/
def startObj : PosObj :=
  { boardRef := 0, player := 0, castleRef := 0, EnP := none, HMC := 0 }

/-- The tie-break specification for the `negamax` move loop: given the
values `vals` computed for the examined moves, the selected `(bv2, bm2)`
either is the initial `(bv, bm)` (no value strictly beat the initial
best), or `bm2` is the first examined move whose value equals the final
best value, every earlier examined value lying strictly below it; all
examined values are bounded by the final best value. -/
def FirstMaxSelects (vals : List Int) (moves : List MoveT) (bv : Int)
    (bm : MoveT) (bv2 : Int) (bm2 : MoveT) : Prop :=
  (∀ v ∈ vals, v ≤ bv2) ∧ bv ≤ bv2 ∧
  ((bv2 = bv ∧ bm2 = bm) ∨
   (bv < bv2 ∧ ∃ i, i < vals.length ∧ i < moves.length ∧
      vals.getD i 0 = bv2 ∧ bm2 = moves.getD i dummyMove ∧
      ∀ j, j < i → vals.getD j 0 < bv2))

/-- Reads of a list are unaffected by appending a fresh element and then
writing at the appended (fresh) index; used for the heap-freshness
argument about clones. -/
theorem getD_append_set {α : Type} (l : List α) (a v d : α) (i : Nat)
    (h : i < l.length) :
    ((l ++ [a]).set l.length v).getD i d = l.getD i d := by
  have hne : l.length ≠ i := by omega
  simp [List.getD, List.getElem?_set_ne hne, List.getElem?_append_left h]

/-- The `negamax` move loop selects by first-to-reach-the-maximum: by
induction over the remaining moves, the loop result relates to the ghost
value list by `FirstMaxSelects`. -/
theorem negamaxLoop_firstmax (position : GamePosition) (d : Nat)
    (beta : Int) (colorsign : Int) (pick : List MoveT → MoveT)
    (openings : OMap) :
    ∀ (moves : List MoveT) (bv : Int) (bm : MoveT) (alpha : Int)
      (s : SMap),
      FirstMaxSelects
        (negamaxLoopVals position d moves alpha beta colorsign pick
          openings s)
        moves bv bm
        (negamaxLoop position d moves bv bm alpha beta colorsign pick
          openings s).2.1
        (negamaxLoop position d moves bv bm alpha beta colorsign pick
          openings s).1 := by
  intro moves
  induction moves with
  | nil =>
    intro bv bm alpha s
    rw [negamaxLoop, negamaxLoopVals]
    simp [FirstMaxSelects]
  | cons move rest ih =>
    intro bv bm alpha s
    rw [negamaxLoop, negamaxLoopVals]
    set v := (moveValue position d move alpha beta colorsign pick openings
      s).1 with hv
    set s1 := (moveValue position d move alpha beta colorsign pick openings
      s).2 with hs1
    by_cases hbr : max alpha v ≥ beta
    · simp only [hbr, if_true]
      by_cases hgt : v > bv
      · simp only [hgt, if_true]
        refine ⟨?_, le_of_lt hgt, Or.inr ⟨hgt, 0, ?_, ?_, ?_, ?_, ?_⟩⟩
        · intro x hx; simp at hx; omega
        · simp
        · simp
        · simp
        · simp
        · omega
      · simp only [hgt, if_false]
        refine ⟨?_, le_refl _, Or.inl ⟨rfl, rfl⟩⟩
        intro x hx; simp at hx; omega
    · simp only [hbr, if_false]
      have IH := ih (if v > bv then v else bv) (if v > bv then move else bm)
        (max alpha v) s1
      obtain ⟨ihA, ihB, ihC⟩ := IH
      by_cases hgt : v > bv
      · simp only [hgt, if_true] at ihA ihB ihC ⊢
        refine ⟨?_, ?_, ?_⟩
        · intro x hx
          rcases List.mem_cons.mp hx with h | h
          · omega
          · exact ihA x h
        · omega
        · rcases ihC with ⟨h1, h2⟩ | ⟨hlt, i, hi1, hi2, hval, hbm, hj⟩
          · refine Or.inr ⟨by omega, 0, by simp, by simp, by simp [h1],
              by simp [h2], by omega⟩
          · refine Or.inr ⟨by omega, i + 1, by simpa using hi1,
              by simpa using hi2, ?_, ?_, ?_⟩
            · simpa using hval
            · simpa using hbm
            · intro j hjlt
              cases j with
              | zero => simpa using hlt
              | succ j2 => simpa using hj j2 (by omega)
      · simp only [hgt, if_false] at ihA ihB ihC ⊢
        refine ⟨?_, ihB, ?_⟩
        · intro x hx
          rcases List.mem_cons.mp hx with h | h
          · omega
          · exact ihA x h
        · rcases ihC with ⟨h1, h2⟩ | ⟨hlt, i, hi1, hi2, hval, hbm, hj⟩
          · exact Or.inl ⟨h1, h2⟩
          · refine Or.inr ⟨hlt, i + 1, by simpa using hi1,
              by simpa using hi2, ?_, ?_, ?_⟩
            · simpa using hval
            · simpa using hbm
            · intro j hjlt
              cases j with
              | zero => simp; omega
              | succ j2 => simpa using hj j2 (by omega)

/-- C1: every move in the list returned by `allMoves` (equivalently, every
target returned by `findPossibleSquares` outside attack-search mode),
applied via `makemove` to a clone of the position, yields a position in
which the moving side's own king is not attacked by the opponent. -/
theorem allMoves_own_king_safe (position : GamePosition) (color : PCol)
    (m : MoveT) (hm : m ∈ allMoves position color) :
    isCheck (makemove position.clone m.1.1 m.1.2 m.2.1 m.2.2) color
      = false := by
  unfold allMoves at hm
  rw [List.mem_flatMap] at hm
  obtain ⟨pos, hpos, hmt⟩ := hm
  rw [List.mem_map] at hmt
  obtain ⟨target, htarget, rfl⟩ := hmt
  have hocc : isOccupiedby position.board pos.1 pos.2 color = true := by
    unfold getallpieces at hpos
    rw [List.mem_flatMap] at hpos
    obtain ⟨j, hj, hpos⟩ := hpos
    rw [List.mem_flatMap] at hpos
    obtain ⟨i, hi, hpos⟩ := hpos
    cases h : isOccupiedby position.board (i : Int) (j : Int) color with
    | false => simp [h] at hpos
    | true =>
      simp [h] at hpos
      subst hpos
      exact h
  obtain ⟨k, hcell⟩ :
      ∃ k, getCell position.board pos.1 pos.2 = some (k, color) := by
    unfold isOccupiedby at hocc
    cases hg : getCell position.board pos.1 pos.2 with
    | none => rw [hg] at hocc; simp at hocc
    | some pc =>
      rw [hg] at hocc
      obtain ⟨k, c⟩ := pc
      simp only [beq_iff_eq] at hocc
      exact ⟨k, by rw [hocc]⟩
  unfold findPossibleSquares at htarget
  rw [hcell] at htarget
  rw [List.mem_filter] at htarget
  have h2 := htarget.2
  rw [Bool.not_eq_eq_eq_not] at h2
  simpa using h2

/-- Witness for C1: a concrete legal king move in the two-king position,
and the safety of the mover's king after it. -/
theorem allMoves_own_king_safe_witness :
    ((0, 7), (0, 6)) ∈ allMoves kingsPos PCol.w ∧
    isCheck (makemove kingsPos.clone 0 7 0 6) PCol.w = false :=
  ⟨by decide,
   allMoves_own_king_safe kingsPos PCol.w ((0, 7), (0, 6)) (by decide)⟩

/-- C2 (amended): `makemove` clears both castling rights of the player to
move the instant a king moves, and clears a side's specific
kingside/queenside right the instant a rook moves from the corresponding
home corner square; capturing a rook on its home square does not clear
any right (see the counterexample below). -/
theorem makemove_castling_rights (position : GamePosition)
    (x y x2 y2 : Int) (wk wq bk bq : Bool)
    (hc : position.castling = [[wk, wq], [bk, bq]]) :
    (∀ c, getCell position.board x y = some (PKind.K, c) →
      position.player = 0 →
      (makemove position x y x2 y2).castling = [[false, false], [bk, bq]]) ∧
    (∀ c, getCell position.board x y = some (PKind.K, c) →
      position.player = 1 →
      (makemove position x y x2 y2).castling = [[wk, wq], [false, false]]) ∧
    (∀ c, getCell position.board x y = some (PKind.R, c) → x = 7 → y = 7 →
      (makemove position x y x2 y2).castling = [[false, wq], [bk, bq]]) ∧
    (∀ c, getCell position.board x y = some (PKind.R, c) → x = 0 → y = 7 →
      (makemove position x y x2 y2).castling = [[wk, false], [bk, bq]]) ∧
    (∀ c, getCell position.board x y = some (PKind.R, c) → x = 7 → y = 0 →
      (makemove position x y x2 y2).castling = [[wk, wq], [false, bq]]) ∧
    (∀ c, getCell position.board x y = some (PKind.R, c) → x = 0 → y = 0 →
      (makemove position x y x2 y2).castling = [[wk, wq], [bk, false]]) := by
  refine ⟨?_, ?_, ?_, ?_, ?_, ?_⟩
  · intro c hcell hp
    simp [makemove, hcell, hc, hp, setCR]
  · intro c hcell hp
    simp [makemove, hcell, hc, hp, setCR]
  · intro c hcell hx hy
    subst hx; subst hy
    simp [makemove, hcell, hc, setCR]
  · intro c hcell hx hy
    subst hx; subst hy
    simp [makemove, hcell, hc, setCR]
  · intro c hcell hx hy
    subst hx; subst hy
    simp [makemove, hcell, hc, setCR]
  · intro c hcell hx hy
    subst hx; subst hy
    simp [makemove, hcell, hc, setCR]

/-- Witness for C2: the white kingside rook moving from (7,7) clears
exactly white's kingside right from the start position. -/
theorem makemove_castling_rights_witness :
    startPos.castling = [[true, true], [true, true]] ∧
    getCell startPos.board 7 7 = some (PKind.R, PCol.w) ∧
    (makemove startPos 7 7 7 5).castling = [[false, true], [true, true]] :=
  ⟨rfl, by decide,
   (makemove_castling_rights startPos 7 7 7 5 true true true true
     rfl).2.2.1 PCol.w (by decide) rfl rfl⟩

/-- Counterexample for C2 as stated: the white bishop legally captures the
black rook on its home corner (7,0), yet black's kingside castling right
is not cleared. -/
theorem rook_capture_keeps_castling_right :
    getCell capturePos.board 4 3 = some (PKind.B, PCol.w) ∧
    getCell capturePos.board 7 0 = some (PKind.R, PCol.b) ∧
    ((4, 3), (7, 0)) ∈ allMoves capturePos PCol.w ∧
    capturePos.castling = [[true, true], [true, true]] ∧
    (makemove capturePos 4 3 7 0).castling = [[true, true], [true, true]] := by
  decide

set_option maxRecDepth 100000 in
set_option maxHeartbeats 4000000 in
/-- The legal move list of the starting position for white, in generation
order. -/
theorem allMoves_start_list :
    allMoves startPos PCol.w =
      [((0, 6), (0, 5)),
       ((0, 6), (0, 4)),
       ((1, 6), (1, 5)),
       ((1, 6), (1, 4)),
       ((2, 6), (2, 5)),
       ((2, 6), (2, 4)),
       ((3, 6), (3, 5)),
       ((3, 6), (3, 4)),
       ((4, 6), (4, 5)),
       ((4, 6), (4, 4)),
       ((5, 6), (5, 5)),
       ((5, 6), (5, 4)),
       ((6, 6), (6, 5)),
       ((6, 6), (6, 4)),
       ((7, 6), (7, 5)),
       ((7, 6), (7, 4)),
       ((1, 7), (0, 5)),
       ((1, 7), (2, 5)),
       ((6, 7), (5, 5)),
       ((6, 7), (7, 5))] := by
  decide

set_option maxRecDepth 100000 in
set_option maxHeartbeats 4000000 in
/-- Black has 20 legal replies after the root move ((0,6),(0,5)). -/
theorem perftBranch1 :
    (allMoves (makemove startPos.clone 0 6 0 5) PCol.b).length
      = 20 := by
  decide

set_option maxRecDepth 100000 in
set_option maxHeartbeats 4000000 in
/-- Black has 20 legal replies after the root move ((0,6),(0,4)). -/
theorem perftBranch2 :
    (allMoves (makemove startPos.clone 0 6 0 4) PCol.b).length
      = 20 := by
  decide

set_option maxRecDepth 100000 in
set_option maxHeartbeats 4000000 in
/-- Black has 20 legal replies after the root move ((1,6),(1,5)). -/
theorem perftBranch3 :
    (allMoves (makemove startPos.clone 1 6 1 5) PCol.b).length
      = 20 := by
  decide

set_option maxRecDepth 100000 in
set_option maxHeartbeats 4000000 in
/-- Black has 20 legal replies after the root move ((1,6),(1,4)). -/
theorem perftBranch4 :
    (allMoves (makemove startPos.clone 1 6 1 4) PCol.b).length
      = 20 := by
  decide

set_option maxRecDepth 100000 in
set_option maxHeartbeats 4000000 in
/-- Black has 20 legal replies after the root move ((2,6),(2,5)). -/
theorem perftBranch5 :
    (allMoves (makemove startPos.clone 2 6 2 5) PCol.b).length
      = 20 := by
  decide

set_option maxRecDepth 100000 in
set_option maxHeartbeats 4000000 in
/-- Black has 20 legal replies after the root move ((2,6),(2,4)). -/
theorem perftBranch6 :
    (allMoves (makemove startPos.clone 2 6 2 4) PCol.b).length
      = 20 := by
  decide

set_option maxRecDepth 100000 in
set_option maxHeartbeats 4000000 in
/-- Black has 20 legal replies after the root move ((3,6),(3,5)). -/
theorem perftBranch7 :
    (allMoves (makemove startPos.clone 3 6 3 5) PCol.b).length
      = 20 := by
  decide

set_option maxRecDepth 100000 in
set_option maxHeartbeats 4000000 in
/-- Black has 20 legal replies after the root move ((3,6),(3,4)). -/
theorem perftBranch8 :
    (allMoves (makemove startPos.clone 3 6 3 4) PCol.b).length
      = 20 := by
  decide

set_option maxRecDepth 100000 in
set_option maxHeartbeats 4000000 in
/-- Black has 20 legal replies after the root move ((4,6),(4,5)). -/
theorem perftBranch9 :
    (allMoves (makemove startPos.clone 4 6 4 5) PCol.b).length
      = 20 := by
  decide

set_option maxRecDepth 100000 in
set_option maxHeartbeats 4000000 in
/-- Black has 20 legal replies after the root move ((4,6),(4,4)). -/
theorem perftBranch10 :
    (allMoves (makemove startPos.clone 4 6 4 4) PCol.b).length
      = 20 := by
  decide

set_option maxRecDepth 100000 in
set_option maxHeartbeats 4000000 in
/-- Black has 20 legal replies after the root move ((5,6),(5,5)). -/
theorem perftBranch11 :
    (allMoves (makemove startPos.clone 5 6 5 5) PCol.b).length
      = 20 := by
  decide

set_option maxRecDepth 100000 in
set_option maxHeartbeats 4000000 in
/-- Black has 20 legal replies after the root move ((5,6),(5,4)). -/
theorem perftBranch12 :
    (allMoves (makemove startPos.clone 5 6 5 4) PCol.b).length
      = 20 := by
  decide

set_option maxRecDepth 100000 in
set_option maxHeartbeats 4000000 in
/-- Black has 20 legal replies after the root move ((6,6),(6,5)). -/
theorem perftBranch13 :
    (allMoves (makemove startPos.clone 6 6 6 5) PCol.b).length
      = 20 := by
  decide

set_option maxRecDepth 100000 in
set_option maxHeartbeats 4000000 in
/-- Black has 20 legal replies after the root move ((6,6),(6,4)). -/
theorem perftBranch14 :
    (allMoves (makemove startPos.clone 6 6 6 4) PCol.b).length
      = 20 := by
  decide

set_option maxRecDepth 100000 in
set_option maxHeartbeats 4000000 in
/-- Black has 20 legal replies after the root move ((7,6),(7,5)). -/
theorem perftBranch15 :
    (allMoves (makemove startPos.clone 7 6 7 5) PCol.b).length
      = 20 := by
  decide

set_option maxRecDepth 100000 in
set_option maxHeartbeats 4000000 in
/-- Black has 20 legal replies after the root move ((7,6),(7,4)). -/
theorem perftBranch16 :
    (allMoves (makemove startPos.clone 7 6 7 4) PCol.b).length
      = 20 := by
  decide

set_option maxRecDepth 100000 in
set_option maxHeartbeats 4000000 in
/-- Black has 20 legal replies after the root move ((1,7),(0,5)). -/
theorem perftBranch17 :
    (allMoves (makemove startPos.clone 1 7 0 5) PCol.b).length
      = 20 := by
  decide

set_option maxRecDepth 100000 in
set_option maxHeartbeats 4000000 in
/-- Black has 20 legal replies after the root move ((1,7),(2,5)). -/
theorem perftBranch18 :
    (allMoves (makemove startPos.clone 1 7 2 5) PCol.b).length
      = 20 := by
  decide

set_option maxRecDepth 100000 in
set_option maxHeartbeats 4000000 in
/-- Black has 20 legal replies after the root move ((6,7),(5,5)). -/
theorem perftBranch19 :
    (allMoves (makemove startPos.clone 6 7 5 5) PCol.b).length
      = 20 := by
  decide

set_option maxRecDepth 100000 in
set_option maxHeartbeats 4000000 in
/-- Black has 20 legal replies after the root move ((6,7),(7,5)). -/
theorem perftBranch20 :
    (allMoves (makemove startPos.clone 6 7 7 5) PCol.b).length
      = 20 := by
  decide

set_option maxRecDepth 100000 in
/-- C3: from the standard starting position, white has exactly 20 legal
moves, and summing black's legal replies over the 20 resulting positions
gives exactly 400 (perft depth 2). -/
theorem perft_start_counts :
    (allMoves startPos PCol.w).length = 20 ∧
    ((allMoves startPos PCol.w).map (fun m =>
      (allMoves (makemove startPos.clone m.1.1 m.1.2 m.2.1 m.2.2)
        PCol.b).length)).sum = 400 := by
  rw [allMoves_start_list]
  refine ⟨rfl, ?_⟩
  simp only [List.map_cons, List.map_nil, List.sum_cons, List.sum_nil,
    perftBranch1, perftBranch2, perftBranch3, perftBranch4, perftBranch5,
    perftBranch6, perftBranch7, perftBranch8, perftBranch9, perftBranch10,
    perftBranch11, perftBranch12, perftBranch13, perftBranch14,
    perftBranch15, perftBranch16, perftBranch17, perftBranch18,
    perftBranch19, perftBranch20]
  norm_num

/-- C4 (amended): the king piece-square table used by the evaluator is the
endgame one exactly when the history holds more than 40 entries, or both
sides' material sums fall below 14 measured with the Counter weights
queen 9, rook 5, knight 3, bishop 3, pawn 1 (not the 900/500/330/320/100
evaluation weights of the claim, see the counterexample below). -/
theorem gamephase_condition (position : GamePosition) :
    tableFor PKind.K (gamephase position) = king_endgame_table ↔
      (position.history.length > 40 ∨
       (whiteMaterialOf (flattenBoard position.board) < 14 ∧
        blackMaterialOf (flattenBoard position.board) < 14)) := by
  by_cases h : (position.history.length > 40 ∨
       (whiteMaterialOf (flattenBoard position.board) < 14 ∧
        blackMaterialOf (flattenBoard position.board) < 14))
  · simp [gamephase, tableFor, h]
  · simp [gamephase, tableFor, h]
    decide

/-- Counterexample for C4 as stated: with a queen and king per side and an
empty history, the code is already in the ending phase (material 9 per
side, below 14), while the phase predicate built from the spec's stated
900/500/330/320/100 weights says opening. -/
theorem gamephase_weights_counterexample :
    gamephase queensPos = Phase.ending ∧
    gamephaseSpec queensPos = Phase.opening := by decide

/-- C5: in a root `negamax` call that misses the opening book and has
moves to examine, the returned best move is the one selected by the move
loop, and that selection satisfies `FirstMaxSelects`: a later move whose
value merely equals the running best never replaces the stored best move
(strict greater-than comparison), so the first move in move-generation
order to reach the maximal value wins. -/
theorem negamax_root_tiebreak (position : GamePosition) (depth : Nat)
    (alpha beta colorsign : Int) (pick : List MoveT → MoveT)
    (openings : OMap) (searched : SMap)
    (hop : olookup openings (pos2key position) = none)
    (hmv : allMoves position (signColor colorsign) ≠ []) :
    (negamax position (depth + 1) alpha beta colorsign pick openings
      searched true).bmr =
      some (negamaxLoop position depth
        (allMoves position (signColor colorsign)) (-100000)
        ((allMoves position (signColor colorsign)).headD dummyMove)
        alpha beta colorsign pick openings searched).1 ∧
    FirstMaxSelects
      (negamaxLoopVals position depth
        (allMoves position (signColor colorsign)) alpha beta colorsign
        pick openings searched)
      (allMoves position (signColor colorsign)) (-100000)
      ((allMoves position (signColor colorsign)).headD dummyMove)
      (negamaxLoop position depth
        (allMoves position (signColor colorsign)) (-100000)
        ((allMoves position (signColor colorsign)).headD dummyMove)
        alpha beta colorsign pick openings searched).2.1
      (negamaxLoop position depth
        (allMoves position (signColor colorsign)) (-100000)
        ((allMoves position (signColor colorsign)).headD dummyMove)
        alpha beta colorsign pick openings searched).1 := by
  constructor
  · rw [negamax]
    simp [hop, hmv]
  · exact negamaxLoop_firstmax position depth beta colorsign pick
      openings _ _ _ _ _

/-- Witness for C5: a concrete root call at depth 1, missing the empty
opening book, on the two-king position. -/
theorem negamax_root_tiebreak_witness :
    olookup [] (pos2key kingsPos) = none ∧
    allMoves kingsPos (signColor 1) ≠ [] ∧
    (negamax kingsPos (0 + 1) (-1000000) 1000000 1
      (fun l => l.headD dummyMove) [] [] true).bmr =
      some (negamaxLoop kingsPos 0 (allMoves kingsPos (signColor 1))
        (-100000) ((allMoves kingsPos (signColor 1)).headD dummyMove)
        (-1000000) 1000000 1 (fun l => l.headD dummyMove) [] []).1 :=
  ⟨rfl, by decide,
   (negamax_root_tiebreak kingsPos 0 (-1000000) 1000000 1
     (fun l => l.headD dummyMove) [] [] rfl (by decide)).1⟩

/-- C6: `pos2key` is a function of exactly the board, the side to move and
the castling rights: two positions (with well-formed two-entry castling
lists) get equal keys precisely when those three components agree, so
positions differing only in en-passant target, half-move clock or history
collide. -/
theorem pos2key_exactly_board_player_castling (p q : GamePosition)
    (hp : p.castling.length = 2) (hq : q.castling.length = 2) :
    pos2key p = pos2key q ↔
      (p.board = q.board ∧ p.player = q.player ∧
       p.castling = q.castling) := by
  obtain ⟨a, b, hpc⟩ := List.length_eq_two.mp hp
  obtain ⟨c, d, hqc⟩ := List.length_eq_two.mp hq
  simp [pos2key, Prod.ext_iff, hpc, hqc]

/-- Witness for C6: the start position against itself with a different
en-passant target. -/
theorem pos2key_exactly_board_player_castling_witness :
    startPos.castling.length = 2 ∧
    ({ startPos with EnP := some (4, 5) } : GamePosition).castling.length
      = 2 ∧
    (pos2key startPos = pos2key { startPos with EnP := some (4, 5) } ↔
      (startPos.board = ({ startPos with EnP := some (4, 5) } :
          GamePosition).board ∧
       startPos.player = ({ startPos with EnP := some (4, 5) } :
          GamePosition).player ∧
       startPos.castling = ({ startPos with EnP := some (4, 5) } :
          GamePosition).castling)) :=
  ⟨rfl, rfl,
   pos2key_exactly_board_player_castling startPos
     { startPos with EnP := some (4, 5) } rfl rfl⟩

/-- C7: applying `makemove` to the clone returned by `clone()` leaves the
original position's board, side to move, castling rights, en-passant
target and half-move clock unchanged — at the heap level, the clone's
board and castling objects are fresh, so mutating them cannot reach the
original's. -/
theorem makemove_on_clone_frames_original (s : Store) (o : PosObj)
    (x y x2 y2 : Int) (hb : o.boardRef < s.boards.length)
    (hcr : o.castleRef < s.castles.length) :
    readPos (makemoveS (cloneS s o).1 (cloneS s o).2 x y x2 y2).1 o =
      readPos s o := by
  simp only [readPos, makemoveS, cloneS]
  rw [getD_append_set _ _ _ _ _ hb, getD_append_set _ _ _ _ _ hcr]

/-- Witness for C7: cloning the start position in a one-entry heap and
playing e2-e4 on the clone leaves the original untouched. -/
theorem makemove_on_clone_frames_original_witness :
    startObj.boardRef < startStore.boards.length ∧
    startObj.castleRef < startStore.castles.length ∧
    readPos (makemoveS (cloneS startStore startObj).1
      (cloneS startStore startObj).2 4 6 4 4).1 startObj =
      readPos startStore startObj :=
  ⟨by decide, by decide,
   makemove_on_clone_frames_original startStore startObj 4 6 4 4
     (by decide) (by decide)⟩

/-- C8: for the side to move, `isCheckmate` and `isStalemate` are never
both true (one requires the king in check, the other requires it not in
check, over the same move list). -/
theorem checkmate_stalemate_exclusive (position : GamePosition) :
    (isCheckmate position (if position.player = 0 then PCol.w else PCol.b)
      && isStalemate position) = false := by
  simp only [isCheckmate, isStalemate]
  cases h : isCheck position
      (if position.player = 0 then PCol.w else PCol.b) <;>
    simp [h]

/-- C9: the castling test checks only the kind letter of the corner piece,
never its color: in `ghostPos` the corner holds an enemy rook, the right
is retained and the intervening-square and attack conditions hold, so the
two-square king move is generated (it even survives the legality filter),
and `makemove` places a white rook beside the king while deleting the
enemy rook from the corner. -/
theorem castling_with_enemy_rook_in_corner :
    getCell ghostPos.board 2 7 = some (PKind.K, PCol.w) ∧
    getCell ghostPos.board 7 7 = some (PKind.R, PCol.b) ∧
    (ghostPos.castling.getD 0 []).getD 0 false = true ∧
    isOccupied ghostPos.board 3 7 = false ∧
    isOccupied ghostPos.board 4 7 = false ∧
    isAttackedby ghostPos 2 7 PCol.b = false ∧
    isAttackedby ghostPos 3 7 PCol.b = false ∧
    isAttackedby ghostPos 4 7 PCol.b = false ∧
    (4, 7) ∈ findPossibleSquares ghostPos 2 7 ∧
    getCell (makemove ghostPos.clone 2 7 4 7).board 4 7 =
      some (PKind.K, PCol.w) ∧
    getCell (makemove ghostPos.clone 2 7 4 7).board 5 7 =
      some (PKind.R, PCol.w) ∧
    getCell (makemove ghostPos.clone 2 7 4 7).board 7 7 = none := by
  decide

/-- C10: calling `makemove` with an empty (in-range) origin square returns
immediately and leaves the position entirely unchanged. -/
theorem makemove_empty_origin (position : GamePosition) (x y x2 y2 : Int)
    (hx : 0 ≤ x ∧ x ≤ 7) (hy : 0 ≤ y ∧ y ≤ 7)
    (h : getCell position.board x y = none) :
    makemove position x y x2 y2 = position := by
  simp only [makemove, h]

/-- Witness for C10: moving from the empty square (4,4) of the start
position changes nothing. -/
theorem makemove_empty_origin_witness :
    ((0 : Int) ≤ 4 ∧ (4 : Int) ≤ 7) ∧
    getCell startPos.board 4 4 = none ∧
    makemove startPos 4 4 0 0 = startPos :=
  ⟨by decide, by decide,
   makemove_empty_origin startPos 4 4 0 0 (by decide) (by decide)
     (by decide)⟩
